import Mathlib

/-!
Shallow embedding of the automatic assignment engine of the
twitter-engagement-platform repository (src/server.js), together with
theorems settling the claims about it.

Conventions of the embedding:
* JS numbers are embedded as exact rationals (ℚ); values that the code
  produces with Math.round / Math.ceil are embedded through Mathlib's
  round / ceiling on ℚ, which agree with the JS operations on the
  non-negative values arising here.
* JS strings are embedded as lists of characters (Str); the substring
  test s.includes(kw) becomes the decidable list-infix test, and the
  JS array membership test arr.includes(x) becomes List.contains.
* Timestamps are rationals counting milliseconds, as in Date.getTime().
* The Fisher-Yates shuffle inside balanceRoleDistributionFairly is
  embedded as an explicit shuffle parameter; theorems that depend on it
  assume only that it permutes its input, which is all the source
  guarantees.
* Absent / optional JS fields are embedded as Option values, with the
  same defaulting the source applies (x || default).
-/

/-- Strings of the source are embedded as lists of characters. -/
abbrev Str := List Char

/-- JS s.includes(kw) substring test on strings. -/
def jsIncludes (s kw : Str) : Bool := decide (kw <:+: s)

/-- JS String.toLowerCase, character by character. -/
def toLowerStr (s : Str) : Str := s.map Char.toLower

/-- JS arr.includes(x) membership test on a possibly-absent array
(answers.daily_routine || "" on a multi-select answer). -/
def routineIncludes (routine : Option (List Str)) (kw : Str) : Bool :=
  match routine with
  | some arr => arr.contains kw
  | none => false

/-- The four engagement roles of the engine. -/
inductive Role where
  | initiator
  | replier
  | retweeter
  | quoter
deriving DecidableEq, Repr

/-- The persona attached to a user by the profiling system
(user.profile.primaryProfile in the source). -/
structure PrimaryProfile where
  label : Str
  description : Str
  bestFor : List Str
  authenticityLevel : Str
deriving DecidableEq, Repr

/-- user.profile in the source: persona label plus spending power and
authenticity score. -/
structure UserProfile where
  primaryProfile : PrimaryProfile
  spendingPower : Str
  authenticityScore : ℤ
deriving DecidableEq, Repr

/-- A registered participant, with the fields the engine reads. -/
structure User where
  telegramId : ℕ
  profileCompleted : Bool
  profile : Option UserProfile
  engagementRate : Option ℚ
  lastParticipation : Option ℚ
  registeredAt : ℚ
deriving DecidableEq, Repr

/-- Authenticity score as read by user.profile.authenticityScore. -/
def authScoreOf (u : User) : ℤ :=
  match u.profile with
  | some p => p.authenticityScore
  | none => 0

/-- A campaign descriptor, with the fields the engine reads. -/
structure Campaign where
  brandName : Str
  targetAudience : Option Str
  package : Str
  budget : ℚ
  estimatedParticipants : ℕ
deriving DecidableEq, Repr

/-- One entry of the role distribution built by distributeRolesInclusive
and rebalanced by balanceRoleDistributionFairly. -/
structure DistEntry where
  user : User
  role : Role
  hasProfile : Bool
  profileMatch : Bool
deriving DecidableEq, Repr

/-- ASSIGNMENT_CONFIG.cooldownHours of the source. -/
structure CooldownHoursConfig where
  base : ℚ
  max : ℚ
  min : ℚ

/-- The cooldown part of ASSIGNMENT_CONFIG: base 24h, max 72h, min 12h. -/
def assignmentConfigCooldown : CooldownHoursConfig := ⟨24, 72, 12⟩

/-- The record stored in cooldowns[userId]; the source field named
until is embedded as untilTime (until is a reserved word in Lean). -/
structure CooldownRecord where
  untilTime : ℚ
  hours : ℚ
deriving DecidableEq, Repr

/-- addUserToCooldown of the source: a larger campaign gives a longer
cooldown, scaled from 24h by min(2, campaignSize / 50) and clamped to
the configured [12, 72] hours; until = now + cooldownHours in ms. -/
def addUserToCooldown (now campaignSize : ℚ) : CooldownRecord :=
  let baseHours := assignmentConfigCooldown.base
  let maxHours := assignmentConfigCooldown.max
  let minHours := assignmentConfigCooldown.min
  let sizeMultiplier := min 2 (campaignSize / 50)
  let cooldownHours := max minHours (min maxHours (baseHours * sizeMultiplier))
  ⟨now + cooldownHours * (60 * 60 * 1000), cooldownHours⟩

/-- Role weight table of calculateEarning (baseRates in the source). -/
def baseRates (r : Role) : ℚ :=
  match r with
  | Role.initiator => 300
  | Role.replier => 200
  | Role.retweeter => 100
  | Role.quoter => 250

/-- calculateEarning of the source: 65% of the budget is the payout
pool, split per estimated participant, weighted by role over the
replier baseline of 200 and rounded to an integer amount. -/
def calculateEarning (c : Campaign) (r : Role) : ℤ :=
  let totalBudget := c.budget * 0.65
  let basePayout := totalBudget / (c.estimatedParticipants : ℚ)
  let roleMultiplier := baseRates r / 200
  round (basePayout * roleMultiplier)

/-- The per-participant share of the 65% payout pool (basePayout in
calculateEarning). -/
def basePerParticipant (c : Campaign) : ℚ :=
  c.budget * 0.65 / (c.estimatedParticipants : ℚ)

/-- Sum of the role multipliers (weight / 200) over a list of roles. -/
def multiplierSum (roles : List Role) : ℚ :=
  (roles.map (fun r => baseRates r / 200)).sum

/-- The scenario campaign of the spec: budget 225000, 40 estimated
participants. -/
def scenarioCampaign : Campaign :=
  { brandName := []
    targetAudience := none
    package := []
    budget := 225000
    estimatedParticipants := 40 }

/-- A small campaign used for concrete batch computations: budget 1000,
4 estimated participants. -/
def smallCampaign : Campaign :=
  { brandName := []
    targetAudience := none
    package := []
    budget := 1000
    estimatedParticipants := 4 }

/-- Raw initiator target of balanceRoleDistributionFairly:
ceil(totalUsers * 0.2). -/
def targetInitiator (T : ℕ) : ℕ := ⌈(T : ℚ) * 0.2⌉₊

/-- Raw replier target of balanceRoleDistributionFairly:
ceil(totalUsers * 0.4). -/
def targetReplier (T : ℕ) : ℕ := ⌈(T : ℚ) * 0.4⌉₊

/-- Raw retweeter target of balanceRoleDistributionFairly:
ceil(totalUsers * 0.25). -/
def targetRetweeter (T : ℕ) : ℕ := ⌈(T : ℚ) * 0.25⌉₊

/-- Raw quoter target of balanceRoleDistributionFairly:
ceil(totalUsers * 0.15). -/
def targetQuoter (T : ℕ) : ℕ := ⌈(T : ℚ) * 0.15⌉₊

/-- totalRoles of balanceRoleDistributionFairly: the sum of the four
raw targets. -/
def targetTotal (T : ℕ) : ℕ :=
  targetInitiator T + targetReplier T + targetRetweeter T + targetQuoter T

/-- The replier target after the overflow adjustment of
balanceRoleDistributionFairly: when the raw targets exceed the user
count the whole excess is taken off the replier target, floored at 1;
no other target is touched. -/
def adjustedReplier (T : ℕ) : ℕ :=
  if T < targetTotal T then max 1 (targetReplier T - (targetTotal T - T))
  else targetReplier T

/-- Modelled from the claim wording (and the superseded distributeRoles
revision): replier reduced by the ceiling of half the excess, floored
at 1. -/
def claimAdjustedReplier (T : ℕ) : ℕ :=
  if T < targetTotal T then
    max 1 (targetReplier T - (targetTotal T - T + 1) / 2)
  else targetReplier T

/-- Modelled from the claim wording (and the superseded distributeRoles
revision): retweeter reduced by the floor of half the excess, floored
at 1. -/
def claimAdjustedRetweeter (T : ℕ) : ℕ :=
  if T < targetTotal T then
    max 1 (targetRetweeter T - (targetTotal T - T) / 2)
  else targetRetweeter T

/-- getTimeSinceLastParticipation of the source: hours since the last
participation (or registration), scaled to a 0-10 recency score that
saturates at 10. -/
def getTimeSinceLastParticipation (now : ℚ) (u : User) : ℚ :=
  let lastParticipation := u.lastParticipation.getD u.registeredAt
  let hoursSince := (now - lastParticipation) / (1000 * 60 * 60)
  min 10 (hoursSince / 24)

/-- A user together with the fairness score attached by
selectBestUsersInclusive (the JS spread {...user, score}). -/
structure ScoredUser where
  user : User
  score : ℚ
deriving DecidableEq, Repr

/-- The score computed inside selectBestUsersInclusive: 0.6 weight on
the engagement rate (default 5), 0.4 on recency, plus a flat +1 bonus
for a completed profile. -/
def scoreUser (now : ℚ) (u : User) : ScoredUser :=
  let engagementScore := u.engagementRate.getD 5
  let base := engagementScore * 0.6
    + getTimeSinceLastParticipation now u * 0.4
  ⟨u, if u.profileCompleted then base + 1 else base⟩

/-- Descending comparison used by sort((a, b) => b.score - a.score). -/
def scoreDescending (a b : ScoredUser) : Bool := decide (b.score ≤ a.score)

/-- selectBestUsersInclusive of the source: score every available user,
sort descending by score, and keep the first maxParticipants. -/
def selectBestUsersInclusive (now : ℚ) (availableUsers : List User)
    (maxParticipants : ℕ) : List ScoredUser :=
  (((availableUsers.map (scoreUser now)).mergeSort scoreDescending).take
    maxParticipants)

/-- The final loop of balanceRoleDistributionFairly: each remaining
user takes the shuffled role at their index, and an index beyond the
role list falls back to the replier role (remainingRoles[index] ||
'replier'). -/
def assignRemaining : List DistEntry → List Role → List DistEntry
  | [], _ => []
  | d :: ds, [] => { d with role := Role.replier } :: assignRemaining ds []
  | d :: ds, r :: rs => { d with role := r } :: assignRemaining ds rs

/-- highAuthUsers of balanceRoleDistributionFairly: entries with a
profile whose authenticity score exceeds 80. -/
def highAuthFilter (distribution : List DistEntry) : List DistEntry :=
  distribution.filter
    (fun d => d.hasProfile && decide (authScoreOf d.user > 80))

/-- The initiator entries placed first by balanceRoleDistributionFairly:
high-authenticity users, up to the initiator target, re-labelled with
the initiator role. -/
def initiatorsPick (distribution : List DistEntry) : List DistEntry :=
  ((highAuthFilter distribution).take
      (targetInitiator distribution.length)).map
    (fun d => { d with role := Role.initiator })

/-- remainingUsers of balanceRoleDistributionFairly: entries whose
telegramId does not occur among the picked initiators. -/
def remainingUsersOf (distribution : List DistEntry) : List DistEntry :=
  distribution.filter
    (fun d => !((initiatorsPick distribution).any
      (fun fd => fd.user.telegramId == d.user.telegramId)))

/-- remainingRoles of balanceRoleDistributionFairly: the unfilled
initiator slots followed by the adjusted replier, retweeter and quoter
slots (before the shuffle). -/
def remainingRolesOf (distribution : List DistEntry) : List Role :=
  List.replicate
      (targetInitiator distribution.length
        - min (targetInitiator distribution.length)
            (highAuthFilter distribution).length)
      Role.initiator
    ++ List.replicate (adjustedReplier distribution.length) Role.replier
    ++ List.replicate (targetRetweeter distribution.length) Role.retweeter
    ++ List.replicate (targetQuoter distribution.length) Role.quoter

/-- balanceRoleDistributionFairly of the source, with the Fisher-Yates
shuffle abstracted as a parameter: initiators picked from
high-authenticity users first, every other entry assigned a role from
the shuffled remaining-role list. -/
def balanceRoleDistributionFairly (shuffle : List Role → List Role)
    (distribution : List DistEntry) : List DistEntry :=
  initiatorsPick distribution
    ++ assignRemaining (remainingUsersOf distribution)
      (shuffle (remainingRolesOf distribution))

/-- Number of entries of a distribution holding a given role. -/
def roleCount (r : Role) (l : List DistEntry) : ℕ :=
  (l.map (fun d => d.role)).count r

/-- A participant entry with no profile, used for concrete batches. -/
def mkPlainEntry (i : ℕ) : DistEntry :=
  ⟨⟨i, false, none, none, none, 0⟩, Role.replier, false, false⟩

/-- A distribution of n profile-less participants with distinct ids. -/
def plainDist (n : ℕ) : List DistEntry := (List.range n).map mkPlainEntry

/-- The keywords isUserMatchForCampaign compares between the campaign
target audience and the profile label. -/
def matchKeywords : List Str :=
  [("student".toList), ("tech".toList), ("professional".toList),
    ("creative".toList), ("entrepreneur".toList)]

/-- isUserMatchForCampaign of the source: keyword overlap between the
lowered target audience and profile label, or spending-power alignment
with the package tier, or authenticity above 85. -/
def isUserMatchForCampaign (user : User) (campaign : Campaign) : Bool :=
  match user.profile with
  | none => false
  | some p =>
    if !user.profileCompleted then false
    else
      let keywordHit :=
        match campaign.targetAudience with
        | none => false
        | some ta =>
          let targetLower := toLowerStr ta
          let profileLower := toLowerStr p.primaryProfile.label
          matchKeywords.any (fun kw =>
            jsIncludes targetLower kw && jsIncludes profileLower kw)
      keywordHit
        || (campaign.package == ("premium".toList)
          && p.spendingPower == ("high".toList))
        || (campaign.package == ("starter".toList)
          && p.spendingPower == ("emerging".toList))
        || decide (p.authenticityScore > 85)

/-- Modelled from the claim wording: the participant is judged a
content/audience match when a keyword overlaps between the
target-audience text and the profile label, or the spending-power tier
aligns with the package tier, or the authenticity score exceeds 85
unconditionally (profile present and completed throughout). -/
def claimMatchCondition (user : User) (campaign : Campaign) : Prop :=
  user.profileCompleted = true
    ∧ ∃ p, user.profile = some p
      ∧ ((∃ kw ∈ matchKeywords,
            (∃ ta, campaign.targetAudience = some ta
              ∧ jsIncludes (toLowerStr ta) kw = true)
            ∧ jsIncludes (toLowerStr p.primaryProfile.label) kw = true)
        ∨ (campaign.package = ("premium".toList)
            ∧ p.spendingPower = ("high".toList))
        ∨ (campaign.package = ("starter".toList)
            ∧ p.spendingPower = ("emerging".toList))
        ∨ p.authenticityScore > 85)

/-- The earning adjustment performed inside notifySelectedUsersInclusive:
starting from the scheduled estimatedEarning, a 15% profile bonus plus
a 10% match bonus when the assignment is a profile match and the
authenticity score exceeds 80, or the 15% profile bonus alone when the
authenticity score exceeds 80. -/
def applyProfileBonus (user : User) (isProfileMatch : Bool)
    (earning : ℤ) : ℤ :=
  if user.profileCompleted && user.profile.isSome then
    let profileBonus := round ((earning : ℚ) * 0.15)
    if isProfileMatch && decide (authScoreOf user > 80) then
      let matchBonus := round ((earning : ℚ) * 0.1)
      earning + (profileBonus + matchBonus)
    else if decide (authScoreOf user > 80) then
      earning + profileBonus
    else earning
  else earning

/-- A completed-profile user with authenticity 75 (no bonus branch). -/
def userAuth75 : User :=
  ⟨10, true, some ⟨⟨[], [], [], []⟩, [], 75⟩, none, none, 0⟩

/-- A completed-profile user with authenticity 85 (bonus branch). -/
def userAuth85 : User :=
  ⟨11, true, some ⟨⟨[], [], [], []⟩, [], 85⟩, none, none, 0⟩

/-- The profiling answers record; daily_routine is the multi-select
array answer, the others are single option strings. -/
structure Answers where
  age_range : Option Str
  daily_routine : Option (List Str)
  spending_priority : Option Str
  influence_style : Option Str
  discovery_style : Option Str

/-- The generated persona (generateUserPersona result shape). -/
structure Persona where
  primaryProfile : PrimaryProfile
  spendingPower : Str
  authenticityScore : ℤ
  marketingValue : Str
  recommendedCampaignTypes : List Str

/-- determineProfile of the source: nested keyword checks over the
joined routine answers, the spending answer and the influence answer,
with a default Authentic Influencer profile. -/
def determineProfile (answers : Answers) : PrimaryProfile :=
  let routineStr := List.intercalate [' '] (answers.daily_routine.getD [])
  let spending := answers.spending_priority.getD []
  let influence := answers.influence_style.getD []
  if jsIncludes routineStr ("Classes".toList)
      && jsIncludes spending ("gadgets".toList) then
    ⟨("Tech-Savvy Student".toList),
      ("University students passionate about technology and gadgets".toList),
      [("tech_products".toList), ("educational_apps".toList),
        ("student_services".toList)],
      ("very_high".toList)⟩
  else if jsIncludes routineStr ("Classes".toList)
      && jsIncludes spending ("Basic needs".toList) then
    ⟨("Budget-Smart Student".toList),
      ("Students who prioritize value and affordability".toList),
      [("affordable_products".toList), ("student_discounts".toList),
        ("value_services".toList)],
      ("very_high".toList)⟩
  else if jsIncludes routineStr ("business".toList)
      && jsIncludes routineStr ("Creative".toList) then
    ⟨("Creative Entrepreneur".toList),
      ("Creative professionals running their own business".toList),
      [("creative_tools".toList), ("business_services".toList),
        ("artistic_products".toList)],
      ("very_high".toList)⟩
  else if jsIncludes routineStr ("Office".toList)
      && jsIncludes spending ("Fashion".toList) then
    ⟨("Style-Conscious Professional".toList),
      ("Young professionals who care about image and status".toList),
      [("fashion".toList), ("premium_products".toList),
        ("professional_services".toList)],
      ("high".toList)⟩
  else if jsIncludes routineStr ("business".toList)
      && jsIncludes spending ("Skills".toList) then
    ⟨("Growth-Focused Entrepreneur".toList),
      ("Business-minded individuals focused on growth and learning".toList),
      [("business_tools".toList), ("productivity_apps".toList),
        ("courses".toList)],
      ("high".toList)⟩
  else if jsIncludes routineStr ("Creative".toList)
      && jsIncludes influence ("genuinely love".toList) then
    ⟨("Passionate Creative".toList),
      ("Artists and creators who genuinely love what they share".toList),
      [("creative_tools".toList), ("artistic_products".toList),
        ("unique_brands".toList)],
      ("very_high".toList)⟩
  else if jsIncludes routineStr ("Job hunting".toList)
      && jsIncludes influence ("value for money".toList) then
    ⟨("Honest Value Advisor".toList),
      ("Job seekers who give very honest opinions about value".toList),
      [("affordable_products".toList), ("job_services".toList),
        ("skill_development".toList)],
      ("very_high".toList)⟩
  else if jsIncludes routineStr ("Classes".toList)
      && jsIncludes routineStr ("Job hunting".toList) then
    ⟨("Ambitious Student".toList),
      ("Students actively preparing for their career".toList),
      [("educational_services".toList), ("career_tools".toList),
        ("skill_development".toList)],
      ("very_high".toList)⟩
  else if jsIncludes routineStr ("Office".toList)
      && jsIncludes routineStr ("Creative".toList) then
    ⟨("Creative Professional".toList),
      ("Working professionals with creative side projects".toList),
      [("creative_tools".toList), ("productivity_apps".toList),
        ("lifestyle_brands".toList)],
      ("high".toList)⟩
  else
    ⟨("Authentic Influencer".toList),
      ("Genuine social media user with authentic voice".toList),
      [("general_products".toList), ("lifestyle_brands".toList)],
      ("high".toList)⟩

/-- determineSpendingPower of the source; the routine checks run on the
multi-select array, the age and spending checks on the answer strings. -/
def determineSpendingPower (answers : Answers) : Str :=
  let age := answers.age_range.getD []
  let spending := answers.spending_priority.getD []
  if routineIncludes answers.daily_routine ("Classes".toList)
      || jsIncludes spending ("Basic needs".toList) then
    ("emerging".toList)
  else if routineIncludes answers.daily_routine ("business".toList)
      || jsIncludes spending ("investments".toList) then
    ("high".toList)
  else if routineIncludes answers.daily_routine ("Office".toList)
      && (jsIncludes age ("26-30".toList)
        || jsIncludes age ("31-35".toList)) then
    ("moderate_to_high".toList)
  else ("moderate".toList)

/-- determineAuthenticity of the source: base 70, plus 20 / 15 / 10 /
15 for the listed answer patterns, capped at 100. -/
def determineAuthenticity (answers : Answers) : ℤ :=
  let influence := answers.influence_style.getD []
  let discovery := answers.discovery_style.getD []
  let s1 : ℤ := if jsIncludes influence ("genuinely love".toList) then 20
    else 0
  let s2 : ℤ := if jsIncludes influence ("solved a real problem".toList)
    then 15 else 0
  let s3 : ℤ :=
    if jsIncludes discovery ("friends and people I trust".toList) then 10
    else 0
  let s4 : ℤ := if routineIncludes answers.daily_routine ("Classes".toList)
      || routineIncludes answers.daily_routine ("Job hunting".toList)
    then 15 else 0
  min 100 (70 + s1 + s2 + s3 + s4)

/-- getRecommendedCampaigns of the source: campaign type suggestions
accumulated from the persona, truncated to five. -/
def getRecommendedCampaigns (persona : Persona) (answers : Answers)
    : List Str :=
  let l1 := if persona.primaryProfile.bestFor.contains
      ("tech_products".toList) then
    [("Tech & Gadgets".toList), ("Apps & Software".toList),
      ("Educational Technology".toList)]
  else []
  let l2 := if persona.spendingPower == ("high".toList) then
    [("Premium Brands".toList), ("Luxury Products".toList),
      ("Investment Services".toList)]
  else []
  let l3 := if decide (persona.authenticityScore > 85) then
    [("Authentic Reviews".toList), ("Personal Experience Sharing".toList),
      ("Honest Testimonials".toList)]
  else []
  let l4 := if persona.primaryProfile.bestFor.contains
      ("affordable_products".toList) then
    [("Budget-Friendly Products".toList), ("Student Discounts".toList),
      ("Value Services".toList)]
  else []
  (l1 ++ l2 ++ l3 ++ l4).take 5

/-- generateUserPersona of the source: assembles the persona from the
three determiners, marks marketingValue high, then fills the
recommended campaign types from the assembled persona. -/
def generateUserPersona (answers : Answers) : Persona :=
  let persona0 : Persona :=
    { primaryProfile := determineProfile answers
      spendingPower := determineSpendingPower answers
      authenticityScore := determineAuthenticity answers
      marketingValue := ("high".toList)
      recommendedCampaignTypes := [] }
  { persona0 with
      recommendedCampaignTypes := getRecommendedCampaigns persona0 answers }

/-- The body of a POST /api/campaigns/create request, with the numeric
fields possibly missing or malformed (embedded as Option). -/
structure CreateCampaignRequest where
  brandName : Option Str
  description : Option Str
  budget : Option ℚ
  estimatedParticipants : Option ℚ

/-- JS truthiness of an optional string field (undefined and the empty
string are falsy). -/
def jsTruthyStr (v : Option Str) : Bool :=
  match v with
  | some s => !s.isEmpty
  | none => false

/-- The explicit check inside the /api/campaigns/create route handler:
only brandName and description are tested before new Campaign(...) is
built. -/
def createCampaignValidated (req : CreateCampaignRequest) : Bool :=
  jsTruthyStr req.brandName && jsTruthyStr req.description

/-- The Mongoose Campaign schema validation run by save() (models.js
campaignSchema): brandName, description and budget carry required:
true, while estimatedParticipants has no validator at all. A required
String fails on undefined and on the empty string; a required Number
fails only when the value is absent (or cannot be cast, embedded here
as none). -/
def campaignSchemaValidates (req : CreateCampaignRequest) : Bool :=
  jsTruthyStr req.brandName && jsTruthyStr req.description
    && req.budget.isSome

/-- Whether a create-campaign request reaches the setTimeout that
schedules createAutomaticAssignments: the route check must pass and
then save() must succeed, i.e. the schema validation must also hold;
estimatedParticipants is inspected by neither layer. -/
def createCampaignReachesEngine (req : CreateCampaignRequest) : Bool :=
  createCampaignValidated req && campaignSchemaValidates req

/-- C7: the cooldown manager computes
clamp(24 * min(2, size/50), 12, 72) hours and an until timestamp now +
that many hours; the duration always lies in [12, 72] hours. -/
theorem cooldown_formula_and_bounds (now s : ℚ) (hs : 0 ≤ s) :
    (addUserToCooldown now s).hours
        = max 12 (min 72 (24 * min 2 (s / 50)))
      ∧ (addUserToCooldown now s).untilTime
        = now + (addUserToCooldown now s).hours * (60 * 60 * 1000)
      ∧ 12 ≤ (addUserToCooldown now s).hours
      ∧ (addUserToCooldown now s).hours ≤ 72 := by
  refine ⟨rfl, rfl, le_max_left _ _, ?_⟩
  have h2 : min (72 : ℚ) (24 * min 2 (s / 50)) ≤ 72 := min_le_left _ _
  calc max (12 : ℚ) (min 72 (24 * min 2 (s / 50))) ≤ max 12 72 :=
        max_le_max le_rfl h2
    _ = 72 := by norm_num

/-- Witness for C7 at now = 0, pool size 100: hypothesis 0 ≤ 100 holds
and the clamp evaluates inside [12, 72]. -/
theorem cooldown_formula_and_bounds_witness :
    (0 : ℚ) ≤ 100
      ∧ ((addUserToCooldown 0 100).hours
            = max 12 (min 72 (24 * min 2 ((100 : ℚ) / 50)))
          ∧ (addUserToCooldown 0 100).untilTime
            = 0 + (addUserToCooldown 0 100).hours * (60 * 60 * 1000)
          ∧ 12 ≤ (addUserToCooldown 0 100).hours
          ∧ (addUserToCooldown 0 100).hours ≤ 72) :=
  ⟨by norm_num, cooldown_formula_and_bounds 0 100 (by norm_num)⟩

/-- C10: for every pool size (even degenerate ones) the computed
cooldown never exceeds 48 hours, because the size multiplier caps at 2;
in particular the configured 72-hour maximum is unreachable. -/
theorem cooldown_hours_le_48 (now s : ℚ) :
    (addUserToCooldown now s).hours ≤ 48
      ∧ (addUserToCooldown now s).hours < 72 := by
  have hmul : (24 : ℚ) * min 2 (s / 50) ≤ 48 := by
    have h := min_le_left (2 : ℚ) (s / 50)
    nlinarith
  have hhours : (addUserToCooldown now s).hours ≤ 48 := by
    show max (12 : ℚ) (min 72 (24 * min 2 (s / 50))) ≤ 48
    refine max_le (by norm_num) ?_
    exact le_trans (min_le_right _ _) hmul
  exact ⟨hhours, lt_of_le_of_lt hhours (by norm_num)⟩

/-- C5: calculateEarning is round(budget * 0.65 / estimatedParticipants
* (weight/200)) with weights 300/200/100/250, and on the spec scenario
(budget 225000, 40 participants) yields 3656 for a replier and 5484 for
an initiator. -/
theorem calculateEarning_formula_and_scenario (c : Campaign) (r : Role)
    (hest : 1 ≤ c.estimatedParticipants) :
    calculateEarning c r
        = round ((c.budget * 0.65 / (c.estimatedParticipants : ℚ))
            * (baseRates r / 200))
      ∧ calculateEarning scenarioCampaign Role.replier = 3656
      ∧ calculateEarning scenarioCampaign Role.initiator = 5484 := by
  refine ⟨rfl, ?_, ?_⟩
  · show round ((225000 * (0.65 : ℚ) / ((40 : ℕ) : ℚ)) * (200 / 200)) = 3656
    norm_num [round_eq]
  · show round ((225000 * (0.65 : ℚ) / ((40 : ℕ) : ℚ)) * (300 / 200)) = 5484
    norm_num [round_eq]

/-- Witness for C5 at the scenario campaign, whose participant target
40 satisfies the positivity hypothesis. -/
theorem calculateEarning_formula_and_scenario_witness :
    1 ≤ scenarioCampaign.estimatedParticipants
      ∧ (calculateEarning scenarioCampaign Role.replier
            = round ((scenarioCampaign.budget * 0.65
                / (scenarioCampaign.estimatedParticipants : ℚ))
              * (baseRates Role.replier / 200))
          ∧ calculateEarning scenarioCampaign Role.replier = 3656
          ∧ calculateEarning scenarioCampaign Role.initiator = 5484) :=
  ⟨by norm_num [scenarioCampaign],
    calculateEarning_formula_and_scenario scenarioCampaign Role.replier
      (by norm_num [scenarioCampaign])⟩

theorem le_targetInitiator (T : ℕ) : (T : ℚ) * 0.2 ≤ targetInitiator T :=
  Nat.le_ceil _

theorem le_targetReplier (T : ℕ) : (T : ℚ) * 0.4 ≤ targetReplier T :=
  Nat.le_ceil _

theorem le_targetRetweeter (T : ℕ) : (T : ℚ) * 0.25 ≤ targetRetweeter T :=
  Nat.le_ceil _

theorem le_targetQuoter (T : ℕ) : (T : ℚ) * 0.15 ≤ targetQuoter T :=
  Nat.le_ceil _

theorem targetInitiator_lt (T : ℕ) :
    (targetInitiator T : ℚ) < (T : ℚ) * 0.2 + 1 :=
  Nat.ceil_lt_add_one (by positivity)

theorem targetReplier_lt (T : ℕ) :
    (targetReplier T : ℚ) < (T : ℚ) * 0.4 + 1 :=
  Nat.ceil_lt_add_one (by positivity)

theorem targetRetweeter_lt (T : ℕ) :
    (targetRetweeter T : ℚ) < (T : ℚ) * 0.25 + 1 :=
  Nat.ceil_lt_add_one (by positivity)

theorem targetQuoter_lt (T : ℕ) :
    (targetQuoter T : ℚ) < (T : ℚ) * 0.15 + 1 :=
  Nat.ceil_lt_add_one (by positivity)

/-- The raw targets always cover the user count, because the four
proportions sum to exactly 1 and each target rounds up. -/
theorem le_targetTotal (T : ℕ) : T ≤ targetTotal T := by
  have h : (T : ℚ) ≤ (targetTotal T : ℚ) := by
    have h1 := le_targetInitiator T
    have h2 := le_targetReplier T
    have h3 := le_targetRetweeter T
    have h4 := le_targetQuoter T
    have hsum : (targetTotal T : ℚ)
        = (targetInitiator T : ℚ) + targetReplier T + targetRetweeter T
          + targetQuoter T := by
      unfold targetTotal
      push_cast
      ring
    rw [hsum]
    nlinarith
  exact_mod_cast h

/-- After the source's adjustment the targets still cover the user
count. -/
theorem le_adjustedTotal (T : ℕ) :
    T ≤ targetInitiator T + adjustedReplier T + targetRetweeter T
      + targetQuoter T := by
  have htot := le_targetTotal T
  unfold adjustedReplier
  split
  · have h := Nat.le_max_left 1 (targetReplier T - (targetTotal T - T))
    unfold targetTotal at *
    omega
  · unfold targetTotal at *
    omega

theorem targetInitiator_six : targetInitiator 6 = 2 := by
  unfold targetInitiator
  rw [Nat.ceil_eq_iff (by norm_num)]
  norm_num

theorem targetReplier_six : targetReplier 6 = 3 := by
  unfold targetReplier
  rw [Nat.ceil_eq_iff (by norm_num)]
  norm_num

theorem targetRetweeter_six : targetRetweeter 6 = 2 := by
  unfold targetRetweeter
  rw [Nat.ceil_eq_iff (by norm_num)]
  norm_num

theorem targetQuoter_six : targetQuoter 6 = 1 := by
  unfold targetQuoter
  rw [Nat.ceil_eq_iff (by norm_num)]
  norm_num

theorem targetTotal_six : targetTotal 6 = 8 := by
  unfold targetTotal
  rw [targetInitiator_six, targetReplier_six, targetRetweeter_six,
    targetQuoter_six]

/-- C3 counterexample: with 6 selected participants the raw targets are
(2, 3, 2, 1), total 8, excess 2; the code reduces the replier target by
the full excess to 1 and leaves the retweeter target at 2, while the
claim's half-and-half reduction would give replier 2 and retweeter 1. -/
theorem targets_adjust_counterexample :
    adjustedReplier 6 = 1
      ∧ claimAdjustedReplier 6 = 2
      ∧ adjustedReplier 6 ≠ claimAdjustedReplier 6
      ∧ claimAdjustedRetweeter 6 = 1
      ∧ targetRetweeter 6 = 2 := by
  have hrep : adjustedReplier 6 = 1 := by
    unfold adjustedReplier
    rw [targetTotal_six, targetReplier_six]
    norm_num
  have hcrep : claimAdjustedReplier 6 = 2 := by
    unfold claimAdjustedReplier
    rw [targetTotal_six, targetReplier_six]
    norm_num
  have hcret : claimAdjustedRetweeter 6 = 1 := by
    unfold claimAdjustedRetweeter
    rw [targetTotal_six, targetRetweeter_six]
    norm_num
  refine ⟨hrep, hcrep, ?_, hcret, targetRetweeter_six⟩
  rw [hrep, hcrep]
  norm_num

/-- C3 amended: the distributor computes the four ceiling targets, and
whenever their sum exceeds T it reduces only the replier target, by the
full excess floored at 1 (the retweeter target is never reduced); the
adjusted targets still sum to at least T. -/
theorem targets_adjust_amended (T : ℕ) :
    targetInitiator T = ⌈(T : ℚ) * 0.2⌉₊
      ∧ targetReplier T = ⌈(T : ℚ) * 0.4⌉₊
      ∧ targetRetweeter T = ⌈(T : ℚ) * 0.25⌉₊
      ∧ targetQuoter T = ⌈(T : ℚ) * 0.15⌉₊
      ∧ adjustedReplier T
        = (if T < targetTotal T then
            max 1 (targetReplier T - (targetTotal T - T))
          else targetReplier T)
      ∧ T ≤ targetInitiator T + adjustedReplier T + targetRetweeter T
          + targetQuoter T :=
  ⟨rfl, rfl, rfl, rfl, rfl, le_adjustedTotal T⟩

theorem scoreDescending_trans (a b c : ScoredUser)
    (hab : scoreDescending a b = true) (hbc : scoreDescending b c = true) :
    scoreDescending a c = true := by
  simp only [scoreDescending, decide_eq_true_eq] at *
  exact le_trans hbc hab

theorem scoreDescending_total (a b : ScoredUser) :
    (scoreDescending a b || scoreDescending b a) = true := by
  simp only [scoreDescending, Bool.or_eq_true, decide_eq_true_eq]
  exact le_total b.score a.score

/-- C6: with the target count min(pool size, estimatedParticipants)
that createAutomaticAssignments passes, the selector keeps exactly
min(pool size, estimatedParticipants) participants; the kept list is a
descending-score prefix of a sorted permutation of the scored pool, so
every kept score dominates every discarded score; a target of 0 keeps
nothing. -/
theorem selectBest_top_n (now : ℚ) (pool : List User) (est : ℕ) :
    (selectBestUsersInclusive now pool (min pool.length est)).length
        = min pool.length est
      ∧ List.Pairwise (fun a b : ScoredUser => b.score ≤ a.score)
          (selectBestUsersInclusive now pool (min pool.length est))
      ∧ (∀ x ∈ selectBestUsersInclusive now pool (min pool.length est),
          ∀ y ∈ ((pool.map (scoreUser now)).mergeSort
              scoreDescending).drop (min pool.length est),
          y.score ≤ x.score)
      ∧ (selectBestUsersInclusive now pool (min pool.length est)
            ++ ((pool.map (scoreUser now)).mergeSort scoreDescending).drop
              (min pool.length est)).Perm (pool.map (scoreUser now))
      ∧ selectBestUsersInclusive now pool (min pool.length 0) = [] := by
  have hsorted : List.Pairwise (fun a b => scoreDescending a b = true)
      ((pool.map (scoreUser now)).mergeSort scoreDescending) :=
    List.sorted_mergeSort scoreDescending_trans scoreDescending_total _
  have hsorted' : List.Pairwise (fun a b : ScoredUser => b.score ≤ a.score)
      ((pool.map (scoreUser now)).mergeSort scoreDescending) := by
    refine hsorted.imp ?_
    intro a b h
    simpa [scoreDescending] using h
  refine ⟨?_, ?_, ?_, ?_, ?_⟩
  · unfold selectBestUsersInclusive
    rw [List.length_take, List.length_mergeSort, List.length_map]
    omega
  · exact hsorted'.sublist (List.take_sublist _ _)
  · intro x hx y hy
    have hsplit := List.take_append_drop (min pool.length est)
      ((pool.map (scoreUser now)).mergeSort scoreDescending)
    rw [← hsplit] at hsorted'
    exact (List.pairwise_append.mp hsorted').2.2 x hx y hy
  · unfold selectBestUsersInclusive
    rw [List.take_append_drop]
    exact List.mergeSort_perm _ _
  · unfold selectBestUsersInclusive
    rw [Nat.min_zero, List.take_zero]

theorem assignRemaining_map_user (ds : List DistEntry) (rs : List Role) :
    (assignRemaining ds rs).map (fun d => d.user)
      = ds.map (fun d => d.user) := by
  induction ds generalizing rs with
  | nil => cases rs <;> rfl
  | cons d ds ih =>
    cases rs with
    | nil => simpa [assignRemaining] using ih []
    | cons r rs => simpa [assignRemaining] using ih rs

theorem assignRemaining_map_role (ds : List DistEntry) (rs : List Role) :
    (assignRemaining ds rs).map (fun d => d.role)
      = rs.take ds.length
        ++ List.replicate (ds.length - rs.length) Role.replier := by
  induction ds generalizing rs with
  | nil => cases rs <;> simp [assignRemaining]
  | cons d ds ih =>
    cases rs with
    | nil =>
      simp [assignRemaining, ih [], List.replicate_succ]
    | cons r rs =>
      simpa [assignRemaining, List.take_succ_cons] using ih rs

theorem assignRemaining_length (ds : List DistEntry) (rs : List Role) :
    (assignRemaining ds rs).length = ds.length := by
  have h := congrArg List.length (assignRemaining_map_user ds rs)
  simpa using h

/-- Core permutation fact behind the distributor: removing a sublist by
id and re-joining it in front permutes the original list, as long as
ids are unique. -/
theorem sublist_filter_not_mem_perm {α : Type} (f : α → ℕ)
    {s l : List α} (hsub : s.Sublist l) (hnodup : (l.map f).Nodup) :
    (s ++ l.filter
        (fun x => !(s.any (fun y => f y == f x)))).Perm l := by
  induction hsub with
  | slnil => simp
  | @cons l₁ l₂ a h ih =>
    have hnd : (l₂.map f).Nodup := (List.nodup_cons.mp hnodup).2
    have hfa : f a ∉ l₂.map f := (List.nodup_cons.mp hnodup).1
    have hpa : (l₁.any (fun y => f y == f a)) = false := by
      rw [List.any_eq_false]
      intro y hy
      simp only [beq_iff_eq]
      intro heq
      exact hfa (heq ▸ List.mem_map_of_mem f ((h.subset) hy))
    have hfilter :
        (a :: l₂).filter (fun x => !(l₁.any (fun y => f y == f x)))
          = a :: l₂.filter (fun x => !(l₁.any (fun y => f y == f x))) := by
      rw [List.filter_cons_of_pos]
      simp [hpa]
    rw [hfilter]
    exact (List.perm_middle).trans ((ih hnd).cons a)
  | @cons₂ l₁ l₂ a h ih =>
    have hnd : (l₂.map f).Nodup := (List.nodup_cons.mp hnodup).2
    have hfa : f a ∉ l₂.map f := (List.nodup_cons.mp hnodup).1
    have hfilter :
        (a :: l₂).filter
            (fun x => !((a :: l₁).any (fun y => f y == f x)))
          = l₂.filter (fun x => !(l₁.any (fun y => f y == f x))) := by
      rw [List.filter_cons_of_neg]
      · apply List.filter_congr
        intro x hx
        have hne : f a ≠ f x := by
          intro heq
          exact hfa (heq ▸ List.mem_map_of_mem f hx)
        simp [List.any_cons, hne]
      · simp
    rw [List.cons_append, hfilter]
    exact ((ih hnd).cons a)

theorem highAuthFilter_take_sublist (dist : List DistEntry) :
    (((highAuthFilter dist).take
      (targetInitiator dist.length))).Sublist dist :=
  (List.take_sublist _ _).trans (List.filter_sublist _)

theorem remainingUsersOf_eq (dist : List DistEntry) :
    remainingUsersOf dist
      = dist.filter (fun d =>
          !(((highAuthFilter dist).take (targetInitiator dist.length)).any
            (fun y => y.user.telegramId == d.user.telegramId))) := by
  unfold remainingUsersOf initiatorsPick
  simp only [List.any_map]
  rfl

theorem balance_map_tid_perm (shuffle : List Role → List Role)
    (dist : List DistEntry)
    (hnodup : (dist.map (fun d => d.user.telegramId)).Nodup) :
    ((balanceRoleDistributionFairly shuffle dist).map
        (fun d => d.user.telegramId)).Perm
      (dist.map (fun d => d.user.telegramId)) := by
  have hperm := sublist_filter_not_mem_perm
    (fun d => d.user.telegramId) (highAuthFilter_take_sublist dist) hnodup
  have h1 : (initiatorsPick dist).map (fun d => d.user.telegramId)
      = ((highAuthFilter dist).take (targetInitiator dist.length)).map
        (fun d => d.user.telegramId) := by
    unfold initiatorsPick
    rw [List.map_map]
    rfl
  have h2 : (assignRemaining (remainingUsersOf dist)
        (shuffle (remainingRolesOf dist))).map
        (fun d => d.user.telegramId)
      = (remainingUsersOf dist).map (fun d => d.user.telegramId) := by
    have huser := assignRemaining_map_user (remainingUsersOf dist)
      (shuffle (remainingRolesOf dist))
    calc (assignRemaining (remainingUsersOf dist)
          (shuffle (remainingRolesOf dist))).map
          (fun d => d.user.telegramId)
        = ((assignRemaining (remainingUsersOf dist)
            (shuffle (remainingRolesOf dist))).map
            (fun d => d.user)).map (fun u => u.telegramId) := by
          rw [List.map_map]; rfl
      _ = ((remainingUsersOf dist).map (fun d => d.user)).map
            (fun u => u.telegramId) := by rw [huser]
      _ = (remainingUsersOf dist).map (fun d => d.user.telegramId) := by
          rw [List.map_map]; rfl
  rw [balanceRoleDistributionFairly, List.map_append, h1, h2,
    remainingUsersOf_eq, ← List.map_append]
  exact hperm.map _

theorem balance_length (shuffle : List Role → List Role)
    (dist : List DistEntry)
    (hnodup : (dist.map (fun d => d.user.telegramId)).Nodup) :
    (balanceRoleDistributionFairly shuffle dist).length = dist.length := by
  have h := (balance_map_tid_perm shuffle dist hnodup).length_eq
  simpa using h

theorem role_count_sum (roles : List Role) :
    roles.count Role.initiator + roles.count Role.replier
        + roles.count Role.retweeter + roles.count Role.quoter
      = roles.length := by
  induction roles with
  | nil => rfl
  | cons r rs ih => cases r <;> simp [List.count_cons] <;> omega

/-- C2: on participant lists with distinct ids, the rebalanced
distribution contains every selected participant exactly once, the four
role counts sum to the participant count, an empty selection yields an
empty distribution, and a participant left beyond the end of the role
list falls back to the replier role. -/
theorem balance_every_participant_once (shuffle : List Role → List Role)
    (dist : List DistEntry)
    (hnodup : (dist.map (fun d => d.user.telegramId)).Nodup) :
    ((balanceRoleDistributionFairly shuffle dist).map
        (fun d => d.user.telegramId)).Perm
        (dist.map (fun d => d.user.telegramId))
      ∧ (∀ d ∈ dist,
          ((balanceRoleDistributionFairly shuffle dist).map
            (fun e => e.user.telegramId)).count d.user.telegramId = 1)
      ∧ roleCount Role.initiator (balanceRoleDistributionFairly shuffle dist)
          + roleCount Role.replier (balanceRoleDistributionFairly shuffle dist)
          + roleCount Role.retweeter
            (balanceRoleDistributionFairly shuffle dist)
          + roleCount Role.quoter (balanceRoleDistributionFairly shuffle dist)
        = dist.length
      ∧ balanceRoleDistributionFairly shuffle [] = []
      ∧ (∀ (ds : List DistEntry) (rs : List Role),
          (assignRemaining ds rs).map (fun d => d.role)
            = rs.take ds.length
              ++ List.replicate (ds.length - rs.length) Role.replier) := by
  refine ⟨balance_map_tid_perm shuffle dist hnodup, ?_, ?_, ?_,
    assignRemaining_map_role⟩
  · intro d hd
    have hmem : d.user.telegramId ∈ dist.map (fun e => e.user.telegramId) :=
      List.mem_map_of_mem _ hd
    have hone : (dist.map (fun e => e.user.telegramId)).count
        d.user.telegramId = 1 :=
      List.count_eq_one_of_mem hnodup hmem
    rw [(balance_map_tid_perm shuffle dist hnodup).count_eq]
    exact hone
  · have hlen := balance_length shuffle dist hnodup
    have hsum := role_count_sum
      ((balanceRoleDistributionFairly shuffle dist).map (fun d => d.role))
    unfold roleCount
    simpa [hlen] using hsum
  · simp [balanceRoleDistributionFairly, initiatorsPick, highAuthFilter,
      remainingUsersOf, assignRemaining]

/-- Witness for C2 on the concrete two-participant distribution
plainDist 2 (distinct ids 0 and 1) with the identity shuffle. -/
theorem balance_every_participant_once_witness :
    ((plainDist 2).map (fun d => d.user.telegramId)).Nodup
      ∧ (((balanceRoleDistributionFairly id (plainDist 2)).map
            (fun d => d.user.telegramId)).Perm
            ((plainDist 2).map (fun d => d.user.telegramId))
          ∧ (∀ d ∈ plainDist 2,
              ((balanceRoleDistributionFairly id (plainDist 2)).map
                (fun e => e.user.telegramId)).count d.user.telegramId = 1)
          ∧ roleCount Role.initiator
                (balanceRoleDistributionFairly id (plainDist 2))
              + roleCount Role.replier
                (balanceRoleDistributionFairly id (plainDist 2))
              + roleCount Role.retweeter
                (balanceRoleDistributionFairly id (plainDist 2))
              + roleCount Role.quoter
                (balanceRoleDistributionFairly id (plainDist 2))
            = (plainDist 2).length
          ∧ balanceRoleDistributionFairly id [] = []
          ∧ (∀ (ds : List DistEntry) (rs : List Role),
              (assignRemaining ds rs).map (fun d => d.role)
                = rs.take ds.length
                  ++ List.replicate (ds.length - rs.length)
                    Role.replier)) :=
  ⟨by decide, balance_every_participant_once id (plainDist 2) (by decide)⟩

theorem round_le_half (q : ℚ) : ((round q : ℤ) : ℚ) ≤ q + 1 / 2 := by
  rw [round_eq]
  have h := Int.floor_le (q + 1 / 2)
  exact h

theorem earn_le (c : Campaign) (r : Role) :
    ((calculateEarning c r : ℤ) : ℚ)
      ≤ basePerParticipant c * (baseRates r / 200) + 1 / 2 :=
  round_le_half _

theorem multiplierSum_cons (r : Role) (rs : List Role) :
    multiplierSum (r :: rs) = baseRates r / 200 + multiplierSum rs := by
  simp [multiplierSum]

theorem multiplierSum_append (l1 l2 : List Role) :
    multiplierSum (l1 ++ l2) = multiplierSum l1 + multiplierSum l2 := by
  simp [multiplierSum]

theorem multiplierSum_replicate (n : ℕ) (r : Role) :
    multiplierSum (List.replicate n r) = n * (baseRates r / 200) := by
  simp [multiplierSum, List.map_replicate, List.sum_replicate,
    nsmul_eq_mul]

theorem multiplierSum_nonneg (l : List Role) : 0 ≤ multiplierSum l := by
  apply List.sum_nonneg
  intro x hx
  rcases List.mem_map.mp hx with ⟨r, _, hr⟩
  subst hr
  cases r <;> norm_num [baseRates]

theorem multiplierSum_take_le (l : List Role) (n : ℕ) :
    multiplierSum (l.take n) ≤ multiplierSum l := by
  conv_rhs => rw [← List.take_append_drop n l]
  rw [multiplierSum_append]
  have h := multiplierSum_nonneg (l.drop n)
  linarith

theorem multiplierSum_perm {l1 l2 : List Role} (h : l1.Perm l2) :
    multiplierSum l1 = multiplierSum l2 :=
  (h.map _).sum_eq

theorem sum_earn_le (c : Campaign) (roles : List Role) :
    (((roles.map (calculateEarning c)).sum : ℤ) : ℚ)
      ≤ basePerParticipant c * multiplierSum roles
        + (roles.length : ℚ) / 2 := by
  induction roles with
  | nil => simp [multiplierSum]
  | cons r rs ih =>
    have he := earn_le c r
    rw [List.map_cons, List.sum_cons, multiplierSum_cons, mul_add,
      List.length_cons, Int.cast_add, Nat.cast_add, Nat.cast_one]
    linarith

theorem map_set_role_eq_replicate (l : List DistEntry) (r : Role) :
    (l.map (fun d => { d with role := r })).map (fun d => d.role)
      = List.replicate l.length r := by
  induction l with
  | nil => rfl
  | cons d ds ih => simp [ih, List.replicate_succ]

theorem adjustedReplier_le (T : ℕ) (hpos : 0 < T) :
    adjustedReplier T ≤ targetReplier T := by
  have h1 : 1 ≤ targetReplier T := by
    have hq : (0 : ℚ) < (T : ℚ) * 0.4 := by
      have hT : (0 : ℚ) < (T : ℚ) := by exact_mod_cast hpos
      nlinarith
    exact Nat.ceil_pos.mpr hq
  unfold adjustedReplier
  split
  · exact max_le h1 (Nat.sub_le _ _)
  · exact le_rfl

theorem targets_zero : targetInitiator 0 = 0 ∧ targetReplier 0 = 0
    ∧ targetRetweeter 0 = 0 ∧ targetQuoter 0 = 0 := by
  refine ⟨?_, ?_, ?_, ?_⟩ <;>
    simp [targetInitiator, targetReplier, targetRetweeter, targetQuoter]

theorem adjustedReplier_lt (T : ℕ) :
    (adjustedReplier T : ℚ) < (T : ℚ) * 0.4 + 1 := by
  rcases Nat.eq_zero_or_pos T with h0 | hpos
  · subst h0
    have hz : adjustedReplier 0 = 0 := by
      unfold adjustedReplier targetTotal
      rw [targets_zero.1, targets_zero.2.1, targets_zero.2.2.1,
        targets_zero.2.2.2]
      norm_num
    rw [hz]
    norm_num
  · have hle := adjustedReplier_le T hpos
    have hcast : (adjustedReplier T : ℚ) ≤ (targetReplier T : ℚ) := by
      exact_mod_cast hle
    exact lt_of_le_of_lt hcast (targetReplier_lt T)

theorem rem_le_sh_core {sl rl shl ti adj tt tq T : ℕ}
    (h1 : sl + rl = T) (h2 : shl = (ti - sl) + adj + tt + tq)
    (h3 : T ≤ ti + adj + tt + tq) (h4 : sl ≤ ti) : rl ≤ shl := by
  omega

/-- C1 amended: with the shuffle an arbitrary permutation and distinct
participant ids, the pre-bonus payout of a batch of T ≤
estimatedParticipants assignments is bounded by budget * 0.65 * 81/80
plus 17/4 of the per-participant base plus half a unit per assignment;
the extra 81/80 factor is the average of the role weights over the
target proportions (0.2*1.5 + 0.4*1 + 0.25*0.5 + 0.15*1.25 = 1.0125),
so the claimed plain 65% cap does not hold. -/
theorem batch_payout_bound (c : Campaign) (shuffle : List Role → List Role)
    (dist : List DistEntry)
    (hshuffle : ∀ rs : List Role, (shuffle rs).Perm rs)
    (hnodup : (dist.map (fun d => d.user.telegramId)).Nodup)
    (hbudget : 0 ≤ c.budget)
    (hest : 1 ≤ c.estimatedParticipants)
    (hT : dist.length ≤ c.estimatedParticipants) :
    (((balanceRoleDistributionFairly shuffle dist).map
        (fun d => calculateEarning c d.role)).sum : ℚ)
      ≤ c.budget * 0.65 * (81 / 80) + basePerParticipant c * (17 / 4)
        + (dist.length : ℚ) / 2 := by
  have hbase : 0 ≤ basePerParticipant c := by
    unfold basePerParticipant
    exact div_nonneg (by nlinarith) (Nat.cast_nonneg _)
  -- length bookkeeping
  have hperm0 := sublist_filter_not_mem_perm
    (fun d => d.user.telegramId) (highAuthFilter_take_sublist dist) hnodup
  have hlen0 : ((highAuthFilter dist).take
        (targetInitiator dist.length)).length
      + (remainingUsersOf dist).length = dist.length := by
    have h := hperm0.length_eq
    rw [List.length_append] at h
    rw [remainingUsersOf_eq]
    exact h
  have hslen : ((highAuthFilter dist).take
        (targetInitiator dist.length)).length
      = min (targetInitiator dist.length) (highAuthFilter dist).length :=
    List.length_take _ _
  have hsle : ((highAuthFilter dist).take
        (targetInitiator dist.length)).length
      ≤ targetInitiator dist.length := by
    rw [hslen]
    exact min_le_left _ _
  have hshlen : (shuffle (remainingRolesOf dist)).length
      = (targetInitiator dist.length
          - ((highAuthFilter dist).take
            (targetInitiator dist.length)).length)
        + adjustedReplier dist.length + targetRetweeter dist.length
        + targetQuoter dist.length := by
    rw [(hshuffle _).length_eq]
    unfold remainingRolesOf
    simp only [List.length_append, List.length_replicate]
    rw [← hslen]
  have hremle : (remainingUsersOf dist).length
      ≤ (shuffle (remainingRolesOf dist)).length :=
    rem_le_sh_core hlen0 hshlen (le_adjustedTotal dist.length) hsle
  -- the roles of the output batch
  have hroles : (balanceRoleDistributionFairly shuffle dist).map
      (fun d => d.role)
      = List.replicate ((highAuthFilter dist).take
          (targetInitiator dist.length)).length Role.initiator
        ++ ((shuffle (remainingRolesOf dist)).take
            (remainingUsersOf dist).length
          ++ List.replicate ((remainingUsersOf dist).length
              - (shuffle (remainingRolesOf dist)).length)
            Role.replier) := by
    rw [balanceRoleDistributionFairly, List.map_append]
    congr 1
    · unfold initiatorsPick
      rw [map_set_role_eq_replicate]
    · exact assignRemaining_map_role _ _
  -- the earning sum against the multiplier sum
  have hmaps : (balanceRoleDistributionFairly shuffle dist).map
      (fun d => calculateEarning c d.role)
      = ((balanceRoleDistributionFairly shuffle dist).map
        (fun d => d.role)).map (calculateEarning c) := by
    rw [List.map_map]
    rfl
  have hsum1 := sum_earn_le c
    ((balanceRoleDistributionFairly shuffle dist).map (fun d => d.role))
  rw [hmaps]
  have houtlen : ((balanceRoleDistributionFairly shuffle dist).map
      (fun d => d.role)).length = dist.length := by
    rw [List.length_map]
    exact balance_length shuffle dist hnodup
  rw [houtlen] at hsum1
  -- bounding the multiplier sum of the output roles
  have hrepl0 : multiplierSum (List.replicate
      ((remainingUsersOf dist).length
        - (shuffle (remainingRolesOf dist)).length) Role.replier) = 0 := by
    have h0 : (remainingUsersOf dist).length
        - (shuffle (remainingRolesOf dist)).length = 0 := by omega
    rw [h0]
    simp [multiplierSum]
  have htake : multiplierSum ((shuffle (remainingRolesOf dist)).take
        (remainingUsersOf dist).length)
      ≤ multiplierSum (shuffle (remainingRolesOf dist)) :=
    multiplierSum_take_le _ _
  have hshsum : multiplierSum (shuffle (remainingRolesOf dist))
      = multiplierSum (remainingRolesOf dist) :=
    multiplierSum_perm (hshuffle _)
  have hcastsub : ((targetInitiator dist.length
        - ((highAuthFilter dist).take
          (targetInitiator dist.length)).length : ℕ) : ℚ)
      = (targetInitiator dist.length : ℚ)
        - (((highAuthFilter dist).take
          (targetInitiator dist.length)).length : ℚ) :=
    Nat.cast_sub hsle
  have hrrsum : multiplierSum (remainingRolesOf dist)
      = ((targetInitiator dist.length
          - ((highAuthFilter dist).take
            (targetInitiator dist.length)).length : ℕ) : ℚ) * (3 / 2)
        + (adjustedReplier dist.length : ℚ) * 1
        + (targetRetweeter dist.length : ℚ) * (1 / 2)
        + (targetQuoter dist.length : ℚ) * (5 / 4) := by
    unfold remainingRolesOf
    rw [multiplierSum_append, multiplierSum_append, multiplierSum_append,
      multiplierSum_replicate, multiplierSum_replicate,
      multiplierSum_replicate, multiplierSum_replicate, ← hslen]
    norm_num [baseRates]
  have hinit : multiplierSum (List.replicate
      ((highAuthFilter dist).take
        (targetInitiator dist.length)).length Role.initiator)
      = (((highAuthFilter dist).take
          (targetInitiator dist.length)).length : ℚ) * (3 / 2) := by
    rw [multiplierSum_replicate]
    norm_num [baseRates]
  have hM : multiplierSum ((balanceRoleDistributionFairly shuffle
      dist).map (fun d => d.role))
      ≤ (targetInitiator dist.length : ℚ) * (3 / 2)
        + (adjustedReplier dist.length : ℚ)
        + (targetRetweeter dist.length : ℚ) * (1 / 2)
        + (targetQuoter dist.length : ℚ) * (5 / 4) := by
    rw [hroles, multiplierSum_append, multiplierSum_append, hrepl0, hinit]
    have hchain2 := htake.trans_eq (hshsum.trans hrrsum)
    rw [hcastsub] at hchain2
    linarith
  -- bounding the targets by the proportions
  have hb1 := targetInitiator_lt dist.length
  have hb2 := adjustedReplier_lt dist.length
  have hb3 := targetRetweeter_lt dist.length
  have hb4 := targetQuoter_lt dist.length
  have hMfinal : multiplierSum ((balanceRoleDistributionFairly shuffle
      dist).map (fun d => d.role))
      ≤ (81 / 80) * (dist.length : ℚ) + 17 / 4 := by
    linarith
  -- base * T stays within the 65% pool
  have hestpos : (0 : ℚ) < (c.estimatedParticipants : ℚ) := by
    exact_mod_cast hest
  have hTcast : (dist.length : ℚ) ≤ (c.estimatedParticipants : ℚ) := by
    exact_mod_cast hT
  have h065 : (0 : ℚ) ≤ c.budget * 0.65 := by nlinarith
  have hbT : basePerParticipant c * (dist.length : ℚ)
      ≤ c.budget * 0.65 := by
    unfold basePerParticipant
    rw [div_mul_eq_mul_div, div_le_iff₀ hestpos]
    exact mul_le_mul_of_nonneg_left hTcast h065
  -- assemble
  have hchain : basePerParticipant c
      * multiplierSum ((balanceRoleDistributionFairly shuffle dist).map
        (fun d => d.role))
      ≤ basePerParticipant c
        * ((81 / 80) * (dist.length : ℚ) + 17 / 4) :=
    mul_le_mul_of_nonneg_left hMfinal hbase
  have hsplit2 : basePerParticipant c
      * ((81 / 80) * (dist.length : ℚ) + 17 / 4)
      = (81 / 80) * (basePerParticipant c * (dist.length : ℚ))
        + basePerParticipant c * (17 / 4) := by ring
  have hfinal : basePerParticipant c
      * ((81 / 80) * (dist.length : ℚ) + 17 / 4)
      ≤ c.budget * 0.65 * (81 / 80)
        + basePerParticipant c * (17 / 4) := by
    rw [hsplit2]
    linarith
  linarith

theorem targetInitiator_four : targetInitiator 4 = 1 := by
  unfold targetInitiator
  rw [Nat.ceil_eq_iff (by norm_num)]
  norm_num

theorem targetReplier_four : targetReplier 4 = 2 := by
  unfold targetReplier
  rw [Nat.ceil_eq_iff (by norm_num)]
  norm_num

theorem targetRetweeter_four : targetRetweeter 4 = 1 := by
  unfold targetRetweeter
  rw [Nat.ceil_eq_iff (by norm_num)]
  norm_num

theorem targetQuoter_four : targetQuoter 4 = 1 := by
  unfold targetQuoter
  rw [Nat.ceil_eq_iff (by norm_num)]
  norm_num

theorem targetTotal_four : targetTotal 4 = 5 := by
  unfold targetTotal
  rw [targetInitiator_four, targetReplier_four, targetRetweeter_four,
    targetQuoter_four]

theorem adjustedReplier_four : adjustedReplier 4 = 1 := by
  unfold adjustedReplier
  rw [targetTotal_four, targetReplier_four]
  norm_num

/-- C1 counterexample: a full batch of 4 participants on a campaign
with budget 1000 and estimatedParticipants 4 pays 244 + 163 + 81 + 203
= 691 before bonuses, while the claimed cap is 1000 * 0.65 + 0.5 * 4 =
652; the 65% pool is exceeded by far more than rounding. -/
theorem batch_payout_counterexample :
    ((balanceRoleDistributionFairly id (plainDist 4)).map
        (fun d => calculateEarning smallCampaign d.role)).sum = 691
      ∧ ¬ ((((balanceRoleDistributionFairly id (plainDist 4)).map
          (fun d => calculateEarning smallCampaign d.role)).sum : ℚ)
        ≤ smallCampaign.budget * 0.65
          + 0.5 * ((plainDist 4).length : ℚ)) := by
  have hlen4 : (plainDist 4).length = 4 := rfl
  have hhigh : highAuthFilter (plainDist 4) = [] := rfl
  have hpick : initiatorsPick (plainDist 4) = [] := by
    unfold initiatorsPick
    rw [hhigh]
    simp
  have hrem : remainingUsersOf (plainDist 4) = plainDist 4 := by
    unfold remainingUsersOf
    rw [hpick]
    simp
  have hroles4 : remainingRolesOf (plainDist 4)
      = [Role.initiator, Role.replier, Role.retweeter, Role.quoter] := by
    unfold remainingRolesOf
    rw [hhigh, hlen4, targetInitiator_four, adjustedReplier_four,
      targetRetweeter_four, targetQuoter_four]
    rfl
  have hbal : balanceRoleDistributionFairly id (plainDist 4)
      = assignRemaining (plainDist 4)
        [Role.initiator, Role.replier, Role.retweeter, Role.quoter] := by
    unfold balanceRoleDistributionFairly
    rw [hpick, hrem, hroles4]
    rfl
  have he_i : calculateEarning smallCampaign Role.initiator = 244 := by
    show round ((1000 * (0.65 : ℚ) / ((4 : ℕ) : ℚ)) * (300 / 200)) = 244
    norm_num [round_eq]
  have he_r : calculateEarning smallCampaign Role.replier = 163 := by
    show round ((1000 * (0.65 : ℚ) / ((4 : ℕ) : ℚ)) * (200 / 200)) = 163
    norm_num [round_eq]
  have he_t : calculateEarning smallCampaign Role.retweeter = 81 := by
    show round ((1000 * (0.65 : ℚ) / ((4 : ℕ) : ℚ)) * (100 / 200)) = 81
    norm_num [round_eq]
  have he_q : calculateEarning smallCampaign Role.quoter = 203 := by
    show round ((1000 * (0.65 : ℚ) / ((4 : ℕ) : ℚ)) * (250 / 200)) = 203
    norm_num [round_eq]
  have hpd : plainDist 4
      = [mkPlainEntry 0, mkPlainEntry 1, mkPlainEntry 2,
        mkPlainEntry 3] := rfl
  have hsum : ((balanceRoleDistributionFairly id (plainDist 4)).map
      (fun d => calculateEarning smallCampaign d.role)).sum = 691 := by
    rw [hbal, hpd]
    simp [assignRemaining, mkPlainEntry, he_i, he_r, he_t, he_q]
  refine ⟨hsum, ?_⟩
  rw [hsum, hlen4]
  show ¬ (((691 : ℤ) : ℚ) ≤ 1000 * 0.65 + 0.5 * ((4 : ℕ) : ℚ))
  push_cast
  norm_num

/-- Witness for the C1 amended bound at the concrete batch of 4
participants on the small campaign, with the identity shuffle. -/
theorem batch_payout_bound_witness :
    (∀ rs : List Role, (id rs : List Role).Perm rs)
      ∧ ((plainDist 4).map (fun d => d.user.telegramId)).Nodup
      ∧ 0 ≤ smallCampaign.budget
      ∧ 1 ≤ smallCampaign.estimatedParticipants
      ∧ (plainDist 4).length ≤ smallCampaign.estimatedParticipants
      ∧ (((balanceRoleDistributionFairly id (plainDist 4)).map
          (fun d => calculateEarning smallCampaign d.role)).sum : ℚ)
        ≤ smallCampaign.budget * 0.65 * (81 / 80)
          + basePerParticipant smallCampaign * (17 / 4)
          + ((plainDist 4).length : ℚ) / 2 :=
  ⟨fun rs => List.Perm.refl rs, by decide, by decide, by decide, by decide,
    batch_payout_bound smallCampaign id (plainDist 4)
      (fun rs => List.Perm.refl rs) (by decide) (by decide) (by decide)
      (by decide)⟩

theorem isUserMatch_iff (u : User) (c : Campaign) :
    isUserMatchForCampaign u c = true ↔ claimMatchCondition u c := by
  unfold isUserMatchForCampaign claimMatchCondition
  cases hp : u.profile with
  | none => simp
  | some p =>
    cases hpc : u.profileCompleted with
    | false => simp
    | true =>
      cases hta : c.targetAudience with
      | none =>
        simp only [hp, hpc, hta, Bool.not_true, Bool.false_eq_true,
          if_false, Bool.or_eq_true, Bool.and_eq_true, decide_eq_true_eq,
          beq_iff_eq, Option.some.injEq, reduceCtorEq, false_and,
          exists_false, and_false, false_or, true_and, exists_eq_left,
          exists_eq_left']
        aesop
      | some ta =>
        simp only [hp, hpc, hta, Bool.not_true, Bool.false_eq_true,
          if_false, Bool.or_eq_true, Bool.and_eq_true, decide_eq_true_eq,
          beq_iff_eq, Option.some.injEq, List.any_eq_true, true_and,
          exists_eq_left, exists_eq_left']
        aesop

/-- C4 amended: at notification time the 15% profile bonus is granted
only when the completed profile also has authenticity above 80; with a
profile-match flag an additional 10% of the base earning stacks
additively; a completed profile with authenticity at most 80 receives
no bonus at all; and the match flag agrees with the claim's
keyword / spending-power / authenticity-over-85 criterion. -/
theorem notify_bonus_amended (u : User) (flag : Bool) (e : ℤ)
    (hc : u.profileCompleted = true) (hp : u.profile.isSome = true) :
    applyProfileBonus u flag e
        = (if 80 < authScoreOf u then
            e + round ((e : ℚ) * 0.15)
              + (if flag then round ((e : ℚ) * 0.1) else 0)
          else e)
      ∧ (∀ c : Campaign,
          isUserMatchForCampaign u c = true ↔ claimMatchCondition u c) := by
  refine ⟨?_, fun c => isUserMatch_iff u c⟩
  unfold applyProfileBonus
  rw [hc, hp]
  by_cases hauth : 80 < authScoreOf u
  · have hd : decide (authScoreOf u > 80) = true := decide_eq_true hauth
    cases flag with
    | true =>
      simp [hd, hauth]
      ring
    | false =>
      simp [hd, hauth]
  · have hd : decide (authScoreOf u > 80) = false := decide_eq_false hauth
    simp [hd, hauth]

/-- C4 counterexample: a participant with a completed profile and
authenticity 75 keeps the base earning 1000 unchanged, while the claim
promises the 15% profile bonus (1150). -/
theorem notify_bonus_counterexample :
    applyProfileBonus userAuth75 false 1000 = 1000
      ∧ (1000 : ℤ) + round ((1000 : ℚ) * 0.15) = 1150
      ∧ applyProfileBonus userAuth75 false 1000
        ≠ (1000 : ℤ) + round ((1000 : ℚ) * 0.15) := by
  have h1 : applyProfileBonus userAuth75 false 1000 = 1000 := rfl
  have h2 : (1000 : ℤ) + round ((1000 : ℚ) * 0.15) = 1150 := by
    norm_num [round_eq]
  refine ⟨h1, h2, ?_⟩
  rw [h1, h2]
  norm_num

/-- Witness for C4 amended on the authenticity-85 user with the match
flag set and base earning 1000. -/
theorem notify_bonus_amended_witness :
    userAuth85.profileCompleted = true
      ∧ userAuth85.profile.isSome = true
      ∧ (applyProfileBonus userAuth85 true 1000
          = (if 80 < authScoreOf userAuth85 then
              (1000 : ℤ) + round ((1000 : ℚ) * 0.15)
                + (if (true : Bool) then round ((1000 : ℚ) * 0.1) else 0)
            else 1000)
        ∧ (∀ c : Campaign,
            isUserMatchForCampaign userAuth85 c = true
              ↔ claimMatchCondition userAuth85 c)) :=
  ⟨rfl, rfl, notify_bonus_amended userAuth85 true 1000 rfl rfl⟩

/-- C9: every authenticity score produced by the profiling system lies
between 70 and 100 inclusive (base 70, non-negative additions, capped
at 100), and the generated persona carries exactly that score, so every
persona has authenticityScore at least 70. -/
theorem authenticity_bounds (a : Answers) :
    70 ≤ determineAuthenticity a
      ∧ determineAuthenticity a ≤ 100
      ∧ (generateUserPersona a).authenticityScore = determineAuthenticity a
      ∧ 70 ≤ (generateUserPersona a).authenticityScore := by
  have hge : 70 ≤ determineAuthenticity a := by
    unfold determineAuthenticity
    refine le_min (by norm_num) ?_
    split_ifs <;> norm_num
  have hle : determineAuthenticity a ≤ 100 := by
    unfold determineAuthenticity
    exact min_le_left _ _
  have hgen : (generateUserPersona a).authenticityScore
      = determineAuthenticity a := rfl
  exact ⟨hge, hle, hgen, hgen ▸ hge⟩

/-- C8 (code bug): a request with brandName, description and budget
but no estimatedParticipants passes both the route check and the
Campaign schema validation, so save() succeeds and the engine is
scheduled with an undefined participant count; a request missing
budget is stopped by the schema's required validator at save(); and
whether the engine is reached never depends on estimatedParticipants. -/
theorem create_campaign_validation_gap :
    createCampaignReachesEngine
        ⟨some ("Acme".toList), some ("Promo".toList), some 1000, none⟩
      = true
      ∧ createCampaignReachesEngine
        ⟨some ("Acme".toList), some ("Promo".toList), none, none⟩ = false
      ∧ (∀ (bn ds : Option Str) (b e1 e2 : Option ℚ),
          createCampaignReachesEngine ⟨bn, ds, b, e1⟩
            = createCampaignReachesEngine ⟨bn, ds, b, e2⟩) :=
  ⟨by decide, by decide, fun bn ds b e1 e2 => rfl⟩

/-- Witness for C6 at the empty pool and target 0: the selector returns
the empty selection and every stated property holds. -/
theorem selectBest_top_n_witness :
    (selectBestUsersInclusive 0 [] (min ([] : List User).length 0)).length
        = min ([] : List User).length 0
      ∧ List.Pairwise (fun a b : ScoredUser => b.score ≤ a.score)
          (selectBestUsersInclusive 0 [] (min ([] : List User).length 0))
      ∧ (∀ x ∈ selectBestUsersInclusive 0 []
            (min ([] : List User).length 0),
          ∀ y ∈ ((([] : List User).map (scoreUser 0)).mergeSort
              scoreDescending).drop (min ([] : List User).length 0),
          y.score ≤ x.score)
      ∧ (selectBestUsersInclusive 0 [] (min ([] : List User).length 0)
            ++ ((([] : List User).map (scoreUser 0)).mergeSort
              scoreDescending).drop
              (min ([] : List User).length 0)).Perm
          (([] : List User).map (scoreUser 0))
      ∧ selectBestUsersInclusive 0 [] (min ([] : List User).length 0)
        = [] :=
  selectBest_top_n 0 [] 0
